import Mathlib

/-!
Verification development for the FlexiBlur repository (src/FlexiBlur.py, with the
ksize normalization step of src/gui.py).  The Python code is shallowly embedded:
frames are rectangular grids of 8-bit pixels, numpy in-place mutation of the
caller's buffer is made explicit by returning the final state of that buffer
alongside the function's return value, and the `handle_exceptions` decorator
(which converts any raised exception into a `None` return) is embedded by
making the fallible operations return `Option`.

Pixels are modelled single-channel: every claim under study is insensitive to
the number of color channels, and the per-channel arithmetic of the external
OpenCV/PIL filters is identical across channels.
-/

set_option maxRecDepth 4000

namespace FlexiBlur

/-- One pixel value; the Python frames are 8-bit, so values live in 0..255
(the only place saturation matters, `cv2.filter2D`, clamps explicitly). -/
abbrev Pixel := Nat

/-- A frame: a row-major rectangular grid of pixels (numpy `ndarray` of shape
height × width). -/
abbrev Frame := List (List Pixel)

/-- Frame height, `image.shape[0]` in the source. -/
def height (f : Frame) : Nat := f.length

/-- Frame width, `image.shape[1]` in the source. -/
def width (f : Frame) : Nat := (f.headD []).length

/-- OpenCV's default `BORDER_REFLECT_101` index folding used by its filters:
an out-of-range index is reflected about the edge pixels (`dcb|abcd|cba`).
For a length-1 axis every index maps to 0, matching `borderInterpolate`. -/
def reflect101 (n : Nat) (i : Int) : Nat :=
  if n ≤ 1 then 0
  else
    let p : Int := 2 * (n : Int) - 2
    let j := i % p
    if j < (n : Int) then j.toNat else (p - j).toNat

/-- Read a pixel with `BORDER_REFLECT_101` folding on both axes. -/
def getPixel (f : Frame) (i j : Int) : Pixel :=
  (f.getD (reflect101 (height f) i) []).getD (reflect101 (width f) j) 0

/-- Pixel at an in-range position of a frame. -/
def pixAt (f : Frame) (i j : Nat) : Pixel := (f.getD i []).getD j 0

/-- The numpy slice `image[y : y + h, x : x + w]` (read side). -/
def crop (img : Frame) (x y w h : Nat) : Frame :=
  ((img.drop y).take h).map (fun row => (row.drop x).take w)

/-- Overwrite the length of `sub` entries of `row` starting at column `x`
(one row of the numpy slice-assignment `image[y : y + h, x : x + w] = ...`). -/
def writeRow (row : List Pixel) (x : Nat) (sub : List Pixel) : List Pixel :=
  row.take x ++ sub ++ row.drop (x + sub.length)

/-- The numpy slice assignment `image[y : y + h, x : x + w] = sub`: the
rectangle of `img` at origin `(x, y)` with `sub`'s dimensions is replaced by
`sub`, in place in Python; here the updated buffer is returned. -/
def writeRegion (img : Frame) (x y : Nat) (sub : Frame) : Frame :=
  (List.range img.length).map (fun i =>
    if y ≤ i ∧ i < y + sub.length then writeRow (img.getD i []) x (sub.getD (i - y) [])
    else img.getD i [])

/-- Correlation value of kernel `ker` against `f` at position `(i, j)`, with
the kernel anchored at its centre `(kh / 2, kw / 2)` — `cv2.filter2D`'s
default anchor — and `BORDER_REFLECT_101` at the edges. -/
def corrAt (ker : List (List Nat)) (f : Frame) (i j : Nat) : Nat :=
  (List.range ker.length).foldl (fun acc a =>
    (List.range (ker.headD []).length).foldl (fun acc2 b =>
      acc2 + (ker.getD a []).getD b 0 *
        getPixel f ((i : Int) + (a : Int) - ((ker.length / 2 : Nat) : Int))
          ((j : Int) + (b : Int) - (((ker.headD []).length / 2 : Nat) : Int))) acc) 0

/-- Model of the external OpenCV primitive `cv2.filter2D(src, -1, kernel)`:
correlation with the kernel anchored at its centre, `BORDER_REFLECT_101`
borders, and (since `ddepth = -1` keeps the 8-bit depth) saturation of each
output value to 255. -/
def filter2D (ker : List (List Nat)) (f : Frame) : Frame :=
  (List.range (height f)).map (fun i =>
    (List.range (width f)).map (fun j => min 255 (corrAt ker f i j)))

/-- The horizontal motion kernel the source builds with
`kernel = np.zeros((1, 15)); kernel[0, :] = np.ones(15)`: one row of 15 ones. -/
def motionKernelH : List (List Nat) := [List.replicate 15 1]

/-- The vertical motion kernel the source builds with
`kernel = np.zeros((15, 1)); kernel[:, 0] = np.ones(15)`: 15 rows of one 1. -/
def motionKernelV : List (List Nat) := List.replicate 15 [1]

/-- Sum of the k × k window of `f` centred at `(i, j)` (reflected borders). -/
def boxSum (k : Nat) (f : Frame) (i j : Nat) : Nat :=
  (List.range k).foldl (fun acc a =>
    (List.range k).foldl (fun acc2 b =>
      acc2 + getPixel f ((i : Int) + (a : Int) - ((k / 2 : Nat) : Int))
        ((j : Int) + (b : Int) - ((k / 2 : Nat) : Int))) acc) 0

/-- Uniform k × k smoothing: deterministic, shape-preserving stand-in for the
floating-point weight profile of the external Gaussian primitives. -/
def boxBlur (k : Nat) (f : Frame) : Frame :=
  (List.range (height f)).map (fun i =>
    (List.range (width f)).map (fun j => boxSum k f i j / (k * k)))

/-- Model of the external OpenCV primitive `cv2.GaussianBlur(src, (k, k), σ)`.
OpenCV accepts the call only when `k` is positive and odd, or `k = 0` with
`σ > 0` (kernel derived from sigma); any other `k` raises `cv2.error`, which
the caller's exception handler turns into `None` — modelled as `none` here.
The Gaussian weights themselves are floating-point and external to the
repository; they are modelled by a uniform kernel, preserving everything the
claims rely on: determinism, shape preservation, and the ksize validity
domain. -/
def gaussianBlur (ksize : Int) (sigma : Int) (f : Frame) : Option Frame :=
  if (0 < ksize ∧ ksize % 2 = 1) ∨ (ksize = 0 ∧ 0 < sigma) then
    some (boxBlur (if ksize = 0 then 3 else ksize.toNat) f)
  else none

/-- Model of the external PIL primitive `ImageFilter.GaussianBlur(radius)`
used by the Radial mode (a negative radius raises, which the caller's handler
turns into `None`); the BGR↔RGB conversions around it permute channels and
are the identity in this single-channel pixel model. -/
def pilGaussianBlur (radius : Int) (f : Frame) : Option Frame :=
  if radius < 0 then none else some (boxBlur (2 * radius.toNat + 1) f)

/-- The `custom_settings` dictionary: recognized keys `ksize`, `sigma`,
`direction`, `angle` (sigma is a Python float used only as a parameter of the
external Gaussian primitive; an integer carrier loses nothing the claims
touch). -/
structure CustomSettings where
  ksize : Int
  sigma : Int
  direction : String
  angle : Int
deriving DecidableEq

/-- The ROI bounds check of `apply_blur` (src/FlexiBlur.py lines 58-65),
verbatim: `x < 0 or y < 0 or w <= 0 or h <= 0 or x + w > image.shape[1]
or y + h > image.shape[0]`. -/
abbrev roiInvalid (img : Frame) (x y w h : Int) : Prop :=
  x < 0 ∨ y < 0 ∨ w ≤ 0 ∨ h ≤ 0 ∨ (width img : Int) < x + w ∨ (height img : Int) < y + h

/-- Observable outcome of one `apply_blur` call: `result` is the Python
return value (`none` = `None`), and `buffer` is the final state of the
caller's `image` array — numpy slice assignment mutates it in place, which a
pure embedding must surface explicitly.  `buffer = none` only when the call
was given no image. -/
structure ApplyOut where
  result : Option Frame
  buffer : Option Frame
deriving DecidableEq

/-- Mode dispatch of `apply_blur` (src/FlexiBlur.py lines 77-101) on the
already-extracted sub-frame.  `none` covers the three failure exits the
Python reaches inside the `try` block: an unknown mode's explicit
`return None`, a `cv2.error` from a bad Custom ksize, and the `NameError`
from the unbound `kernel` when Motion gets an unknown direction — each is
caught by the `except` at lines 108-110 and becomes `return None`. -/
def blurSub (blur_mode : String) (cs : CustomSettings) (sub : Frame) : Option Frame :=
  if blur_mode = "Heavy" then gaussianBlur 51 0 sub
  else if blur_mode = "Slight" then gaussianBlur 15 0 sub
  else if blur_mode = "Custom" then gaussianBlur cs.ksize cs.sigma sub
  else if blur_mode = "Motion" then
    if cs.direction = "horizontal" then some (filter2D motionKernelH sub)
    else if cs.direction = "vertical" then some (filter2D motionKernelV sub)
    else none
  else if blur_mode = "Radial" then pilGaussianBlur cs.angle sub
  else none

/-- Embedding of `apply_blur` (src/FlexiBlur.py lines 45-112).  An empty
image returns `None`; an invalid ROI returns the image unmodified; a valid
ROI is cropped, blurred out of place, and written back into the caller's
buffer by slice assignment (so `buffer` changes); with no ROI the blur of the
whole copy is returned and the caller's buffer is untouched (the Python
rebinds the local name `image` only). -/
def apply_blur (image : Option Frame) (roi : Option (Int × Int × Int × Int))
    (blur_mode : String) (cs : CustomSettings) : ApplyOut :=
  match image with
  | none => ⟨none, none⟩
  | some img =>
    match roi with
    | some (x, y, w, h) =>
      if roiInvalid img x y w h then ⟨some img, some img⟩
      else
        match blurSub blur_mode cs (crop img x.toNat y.toNat w.toNat h.toNat) with
        | none => ⟨none, some img⟩
        | some b =>
          let img2 := writeRegion img x.toNat y.toNat b
          ⟨some img2, some img2⟩
    | none =>
      match blurSub blur_mode cs img with
      | none => ⟨none, some img⟩
      | some b => ⟨some b, some img⟩

/-- The ksize normalization of `FlexiBlurApp.save_custom_blur_settings`
(src/gui.py lines 322-324): an even kernel size is bumped to the next odd
value before being stored in `custom_blur_settings`. -/
def save_ksize (k : Int) : Int := if k % 2 = 0 then k + 1 else k

/-- A moviepy clip, parametric in the frame type so a transformed clip can
carry the possibly-failed (`Option Frame`) frames `fl_image` produces:
time-stamped frames (timestamps in seconds from the clip start) plus the
clip duration.  The audio track is not modelled: it sits entirely behind the
codec boundary and no claim touches it. -/
structure Clip (α : Type) where
  frames : List (ℚ × α)
  duration : ℚ
deriving DecidableEq

/-- moviepy's `clip.fl_image(g)`: apply `g` to every frame, keeping
timestamps and duration. -/
def flImage {α β : Type} (g : α → β) (c : Clip α) : Clip β :=
  ⟨c.frames.map (fun tf => (tf.1, g tf.2)), c.duration⟩

/-- moviepy's `clip.subclip(s, e)`: keep exactly the frames with timestamps
in [s, e), re-based to start at 0; the rest are dropped. -/
def subclipC {α : Type} (s e : ℚ) (c : Clip α) : Clip α :=
  ⟨(c.frames.filter (fun tf => decide (s ≤ tf.1 ∧ tf.1 < e))).map (fun tf => (tf.1 - s, tf.2)),
    e - s⟩

/-- The external media environment (codec boundary): `imread` is
`cv2.imread` (which returns `None`, not an exception, on an unreadable
path), `clips` is `VideoFileClip` (`none` models the constructor raising on
an unreadable path), and `writeFails` says whether
`blurred_clip.write_videofile` raises at a given output path. -/
structure MediaEnv where
  imread : String → Option Frame
  clips : String → Option (Clip Frame)
  writeFails : String → Bool

/-- Embedding of `process_image` (src/FlexiBlur.py lines 115-132) at its
declared arity: read the image at `path` (`None` on decode failure), apply
the blur, and on success write the result back to the **same** path and
return it; if `apply_blur` returned `None` the item fails with no result. -/
def process_image (env : MediaEnv) (path : String) (roi : Option (Int × Int × Int × Int))
    (blur_mode : String) (cs : CustomSettings) : Option String :=
  match (apply_blur (env.imread path) roi blur_mode cs).result with
  | none => none
  | some _ => some path

/-- The nested `blur_region` of `process_video` (lines 142-148): the frame
is copied before `apply_blur`, so the in-place write-back of `apply_blur`
lands on the copy and only the return value matters; a `None` result is
passed through (after being logged). -/
def blur_region (roi : Option (Int × Int × Int × Int)) (blur_mode : String)
    (cs : CustomSettings) (fr : Frame) : Option Frame :=
  (apply_blur (some fr) roi blur_mode cs).result

/-- Python's `str.lower` on one character, for the ASCII range the media
paths use. -/
def lowerChar (c : Char) : Char :=
  if c.toNat < 65 ∨ 90 < c.toNat then c else Char.ofNat (c.toNat + 32)

/-- Python's `path.lower()`. -/
def lowerStr (p : String) : String := ⟨p.data.map lowerChar⟩

/-- Python's `str.endswith`. -/
def endsWithStr (p suf : String) : Bool := suf.data.isSuffixOf p.data

/-- `os.path.basename`: the part of the path after the last slash. -/
def basename (p : String) : String := ⟨(p.data.reverse.takeWhile (fun c => c ≠ '/')).reverse⟩

/-- The fixed output directory of the in-code `config` dictionary. -/
def outputDir : String := "output/"

/-- Observable outcome of one `process_video` call: the Python return value
and the clip handed to `write_videofile` (`none` when decoding failed before
any write was attempted). -/
structure VideoOutcome where
  result : Option String
  written : Option (Clip (Option Frame))
deriving DecidableEq

/-- Embedding of `process_video` (src/FlexiBlur.py lines 135-183).
`end_time` defaults to the clip duration when `None`; when
`start_time == 0 and end_time == clip.duration` the whole clip is
transformed, otherwise the subclip [start_time, end_time) is extracted and
transformed.  The `try`/`except` around `write_videofile` catches an encode
exception, logs it, and **falls through to `return output_path`**, so the
returned value does not depend on `env.writeFails` — the function reports
the output path even when the write raised. -/
def process_video (env : MediaEnv) (path : String) (roi : Option (Int × Int × Int × Int))
    (blur_mode : String) (cs : CustomSettings) (start_time : ℚ) (end_time : Option ℚ) :
    VideoOutcome :=
  match env.clips path with
  | none => ⟨none, none⟩
  | some clip =>
    let et := end_time.getD clip.duration
    let blurred : Clip (Option Frame) :=
      if start_time = 0 ∧ et = clip.duration then flImage (blur_region roi blur_mode cs) clip
      else flImage (blur_region roi blur_mode cs) (subclipC start_time et clip)
    ⟨some (outputDir ++ basename path), some blurred⟩

/-- A positional argument of a dynamically dispatched Python call, as built
by `executor.submit` in `process_media_in_parallel`. -/
inductive PyArg where
  | path (s : String)
  | roi (r : Option (Int × Int × Int × Int))
  | mode (m : String)
  | settings (c : CustomSettings)
  | t (q : ℚ)
  | otime (o : Option ℚ)

/-- The `handle_exceptions`-wrapped `process_image` callable as the worker
pool invokes it: Python binds the positional argument list against the
4-parameter signature `process_image(path, roi, blur_mode,
custom_settings)`; any other argument count raises `TypeError` inside the
wrapper's `try`, which the wrapper converts to a `None` return. -/
def process_image_wrapped (env : MediaEnv) (args : List PyArg) : Option String :=
  match args with
  | [.path p, .roi r, .mode m, .settings c] => process_image env p r m c
  | _ => none

/-- The `handle_exceptions`-wrapped `process_video` callable as the worker
pool invokes it (6 positional parameters). -/
def process_video_wrapped (env : MediaEnv) (args : List PyArg) : Option String :=
  match args with
  | [.path p, .roi r, .mode m, .settings c, .t s, .otime e] =>
    (process_video env p r m c s e).result
  | _ => none

/-- The extension test of the dispatcher (src/FlexiBlur.py line 201):
`path.lower().endswith((".jpg", ".jpeg", ".png"))`. -/
def isImagePath (p : String) : Bool :=
  endsWithStr (lowerStr p) ".jpg" || endsWithStr (lowerStr p) ".jpeg" ||
    endsWithStr (lowerStr p) ".png"

/-- One submitted task of `process_media_in_parallel` (lines 197-212): the
item is routed by extension to `process_image` or `process_video`, and —
exactly as in the source — the **same six positional arguments** are passed
to whichever callee was selected. -/
def submitTask (env : MediaEnv) (p : String) (roi : Option (Int × Int × Int × Int))
    (blur_mode : String) (cs : CustomSettings) (st : ℚ) (et : Option ℚ) : Option String :=
  if isImagePath p then
    process_image_wrapped env [.path p, .roi roi, .mode blur_mode, .settings cs, .t st, .otime et]
  else
    process_video_wrapped env [.path p, .roi roi, .mode blur_mode, .settings cs, .t st, .otime et]

/-- Embedding of `process_media_in_parallel` (src/FlexiBlur.py lines
186-220).  Each path becomes one future whose eventual value is
deterministic per item; `as_completed` yields the futures in a
scheduler-dependent completion order, modelled by the explicit index
permutation `order`.  Results that are `None` (falsy) are skipped; the
others are appended in completion order. -/
def process_media_in_parallel (env : MediaEnv) (media_paths : List String)
    (roi : Option (Int × Int × Int × Int)) (blur_mode : String) (cs : CustomSettings)
    (st : ℚ) (et : Option ℚ) (order : List Nat) : List String :=
  let futures := media_paths.map (fun p => submitTask env p roi blur_mode cs st et)
  order.filterMap (fun i => futures.getD i none)

/-! Concrete fixtures used by the witness and counterexample theorems. -/

/-- The default `custom_settings` dictionary of the source's `__main__`
block and of the GUI (`ksize 25, sigma 5, direction horizontal, angle 45`). -/
def mcs : CustomSettings := ⟨25, 5, "horizontal", 45⟩

/-- Custom settings with the smallest legal Gaussian kernel, so tiny frames
evaluate quickly in the witnesses. -/
def csK1 : CustomSettings := ⟨1, 0, "horizontal", 0⟩

/-- Custom settings whose Motion direction is neither recognized value. -/
def dcs : CustomSettings := ⟨25, 5, "diagonal", 45⟩

/-- Codec environment holding one readable 1×1 image at `a.jpg`. -/
def imgEnv : MediaEnv :=
  ⟨fun p => if p = "a.jpg" then some [[5]] else none, fun _ => none, fun _ => false⟩

/-- A two-frame, two-second clip (frames at t = 0 and t = 1). -/
def demoClip : Clip Frame := ⟨[(0, [[1]]), (1, [[2]])], 2⟩

/-- Codec environment with a readable video at `v.mp4` whose encode step
raises on every output path. -/
def vidEnvFail : MediaEnv :=
  ⟨fun _ => none, fun p => if p = "v.mp4" then some demoClip else none, fun _ => true⟩

/-- Codec environment with a readable video at `a.mp4` (and nothing else);
encoding succeeds. -/
def vidEnvOk : MediaEnv :=
  ⟨fun _ => none, fun p => if p = "a.mp4" then some demoClip else none, fun _ => false⟩

/-! Helper lemmas. -/

lemma foldl_add_eq_sum (g : Nat → Nat) (n : Nat) (acc : Nat) :
    (List.range n).foldl (fun a b => a + g b) acc = acc + ∑ b in Finset.range n, g b := by
  induction n generalizing acc with
  | zero => simp
  | succ m ih =>
    rw [List.range_succ, List.foldl_append, ih, Finset.sum_range_succ]
    simp [Nat.add_assoc]

lemma replicate_getD {α : Type} (n i : Nat) (a d : α) (h : i < n) :
    (List.replicate n a).getD i d = a := by
  induction n generalizing i with
  | zero => omega
  | succ m ih =>
    cases i with
    | zero => simp [List.replicate_succ]
    | succ k => simp only [List.replicate_succ, List.getD_cons_succ]; exact ih k (by omega)

lemma getD_map_range {α : Type} (g : Nat → α) (n i : Nat) (d : α) (h : i < n) :
    ((List.range n).map g).getD i d = g i := by
  rw [List.getD_eq_getElem _ _ (by simpa using h), List.getElem_map, List.getElem_range]

lemma pixAt_filter2D (ker : List (List Nat)) (f : Frame) (i j : Nat)
    (hi : i < height f) (hj : j < width f) :
    pixAt (filter2D ker f) i j = min 255 (corrAt ker f i j) := by
  unfold pixAt filter2D
  rw [getD_map_range _ _ _ _ hi, getD_map_range _ _ _ _ hj]

lemma corrAt_motionH (f : Frame) (i j : Nat) :
    corrAt motionKernelH f i j
      = ∑ b in Finset.range 15, getPixel f (i : Int) ((j : Int) + (b : Int) - 7) := by
  unfold corrAt motionKernelH
  simp only [List.length_cons, List.length_nil, List.headD_cons, List.length_replicate]
  rw [show List.range 1 = [0] from rfl]
  simp only [List.foldl_cons, List.foldl_nil, List.getD_cons_zero]
  rw [foldl_add_eq_sum (fun b => (List.replicate 15 1).getD b 0 *
    getPixel f ((i : Int) + (0 : Nat) - ((1 / 2 : Nat) : Int))
      ((j : Int) + (b : Int) - ((15 / 2 : Nat) : Int))) 15 0]
  rw [Nat.zero_add]
  refine Finset.sum_congr rfl fun b hb => ?_
  rw [replicate_getD _ _ _ _ (Finset.mem_range.mp hb), Nat.one_mul]
  norm_num

lemma corrAt_motionV (f : Frame) (i j : Nat) :
    corrAt motionKernelV f i j
      = ∑ a in Finset.range 15, getPixel f ((i : Int) + (a : Int) - 7) (j : Int) := by
  unfold corrAt motionKernelV
  rw [show (List.replicate 15 ([1] : List Nat)).headD [] = [1] from rfl]
  rw [show (List.replicate 15 ([1] : List Nat)).length = 15 from rfl]
  rw [show ([1] : List Nat).length = 1 from rfl]
  have hbody : ∀ (acc a : Nat),
      (List.range 1).foldl (fun acc2 b =>
        acc2 + ((List.replicate 15 ([1] : List Nat)).getD a []).getD b 0 *
          getPixel f ((i : Int) + (a : Int) - ((15 / 2 : Nat) : Int))
            ((j : Int) + (b : Int) - ((1 / 2 : Nat) : Int))) acc
      = acc + ((List.replicate 15 ([1] : List Nat)).getD a []).getD 0 0 *
          getPixel f ((i : Int) + (a : Int) - 7) (j : Int) := by
    intro acc a
    rw [show List.range 1 = [0] from rfl]
    simp only [List.foldl_cons, List.foldl_nil]
    norm_num
  simp only [hbody]
  rw [foldl_add_eq_sum (fun a => ((List.replicate 15 ([1] : List Nat)).getD a []).getD 0 0 *
    getPixel f ((i : Int) + (a : Int) - 7) (j : Int)) 15 0]
  rw [Nat.zero_add]
  refine Finset.sum_congr rfl fun a ha => ?_
  rw [replicate_getD _ _ _ _ (Finset.mem_range.mp ha)]
  simp

lemma blurSub_custom (cs : CustomSettings) (sub : Frame) :
    blurSub "Custom" cs sub = gaussianBlur cs.ksize cs.sigma sub := by
  unfold blurSub
  rw [if_neg (by decide : ¬("Custom" = "Heavy")), if_neg (by decide : ¬("Custom" = "Slight")),
    if_pos rfl]

lemma blurSub_unknown (m : String) (cs : CustomSettings) (sub : Frame)
    (h1 : m ≠ "Heavy") (h2 : m ≠ "Slight") (h3 : m ≠ "Custom") (h4 : m ≠ "Motion")
    (h5 : m ≠ "Radial") : blurSub m cs sub = none := by
  unfold blurSub
  rw [if_neg h1, if_neg h2, if_neg h3, if_neg h4, if_neg h5]

lemma blurSub_motion_bad (cs : CustomSettings) (sub : Frame)
    (h1 : cs.direction ≠ "horizontal") (h2 : cs.direction ≠ "vertical") :
    blurSub "Motion" cs sub = none := by
  unfold blurSub
  rw [if_neg (by decide : ¬("Motion" = "Heavy")), if_neg (by decide : ¬("Motion" = "Slight")),
    if_neg (by decide : ¬("Motion" = "Custom")), if_pos rfl, if_neg h1, if_neg h2]

lemma blurSub_motion_h (cs : CustomSettings) (sub : Frame)
    (hd : cs.direction = "horizontal") :
    blurSub "Motion" cs sub = some (filter2D motionKernelH sub) := by
  unfold blurSub
  rw [if_neg (by decide : ¬("Motion" = "Heavy")), if_neg (by decide : ¬("Motion" = "Slight")),
    if_neg (by decide : ¬("Motion" = "Custom")), if_pos rfl, if_pos hd]

lemma blurSub_motion_v (cs : CustomSettings) (sub : Frame)
    (hd : cs.direction = "vertical") :
    blurSub "Motion" cs sub = some (filter2D motionKernelV sub) := by
  unfold blurSub
  rw [if_neg (by decide : ¬("Motion" = "Heavy")), if_neg (by decide : ¬("Motion" = "Slight")),
    if_neg (by decide : ¬("Motion" = "Custom")), if_pos rfl,
    if_neg (show ¬(cs.direction = "horizontal") by rw [hd]; decide), if_pos hd]

lemma filterMap_getD_range {α : Type} (l : List (Option α)) :
    (List.range l.length).filterMap (fun i => l.getD i none) = l.filterMap id := by
  induction l with
  | nil => simp
  | cons a t ih =>
    rw [List.length_cons, List.range_succ_eq_map, List.filterMap_cons, List.filterMap_map]
    have h2 : ((fun i => (a :: t).getD i none) ∘ Nat.succ) = fun i => t.getD i none := by
      funext i; simp [List.getD_cons_succ]
    rw [h2, ih]
    cases a with
    | none => simp [List.getD_cons_zero, List.filterMap_cons]
    | some b => simp [List.getD_cons_zero, List.filterMap_cons]

lemma length_filterMap_id {α : Type} (l : List (Option α)) :
    (l.filterMap id).length = l.length - (l.filter (fun o => o.isNone)).length := by
  induction l with
  | nil => simp
  | cons a t ih =>
    have hle : (t.filter (fun o => o.isNone)).length ≤ t.length := List.length_filter_le _ _
    cases a with
    | none => simp [List.filterMap_cons, ih]
    | some b => simp [List.filterMap_cons, ih]; omega

/-! Claim theorems. -/

/-- C1: the claim says an image path whose decode and blur succeed appears in
the sequence returned by `process_media_in_parallel`.  The code cannot
produce this: the dispatcher routes `a.jpg` to `process_image` but submits
six positional arguments to its four-parameter signature, so the call raises
`TypeError`, `handle_exceptions` converts it to `None`, and the item is
dropped.  This theorem exhibits the divergence on a concrete batch: called
at its own arity `process_image` succeeds and returns the source path, the
dispatcher does classify the path as an image, yet the batch result is
empty. -/
theorem c1_dispatcher_drops_successful_images :
    process_image imgEnv "a.jpg" none "Custom" csK1 = some "a.jpg" ∧
    isImagePath "a.jpg" = true ∧
    process_media_in_parallel imgEnv ["a.jpg"] none "Custom" csK1 0 none [0] = [] := by
  decide

/-- C2 counterexample: the claim says a successful `apply_blur` call with a
rectangular region leaves the caller's input array byte-for-byte unchanged.
On the 1×1 frame `[[1]]` with region (0,0,1,1) in Motion mode the call
succeeds and the caller's buffer ends as `[[15]]` — the blurred pixels were
written into it in place — which differs from the original `[[1]]`. -/
theorem c2_inplace_mutation_counterexample :
    apply_blur (some [[1]]) (some (0, 0, 1, 1)) "Motion" mcs
      = ⟨some [[15]], some [[15]]⟩ ∧ ([[15]] : Frame) ≠ [[1]] := by
  decide

/-- C2 amended: with a valid rectangular region a successful `apply_blur`
writes the blurred pixels back into the caller's buffer in place — the
buffer after the call equals the returned frame — and only when the region
is absent is the caller's buffer left unchanged. -/
theorem c2_writeback_in_place (img : Frame) (x y w h : Int) (m : String)
    (cs : CustomSettings) (hroi : ¬roiInvalid img x y w h) :
    (∀ res, (apply_blur (some img) (some (x, y, w, h)) m cs).result = some res →
      (apply_blur (some img) (some (x, y, w, h)) m cs).buffer = some res) ∧
    (apply_blur (some img) none m cs).buffer = some img := by
  constructor
  · intro res hres
    simp only [apply_blur] at hres ⊢
    rw [if_neg hroi] at hres ⊢
    cases hb : blurSub m cs (crop img x.toNat y.toNat w.toNat h.toNat) with
    | none => rw [hb] at hres; simp at hres
    | some b => rw [hb] at hres; simpa using hres
  · simp only [apply_blur]
    cases blurSub m cs img with
    | none => rfl
    | some b => rfl

/-- C2 witness: the amended theorem applied to the concrete mutation
scenario of the counterexample. -/
theorem c2_writeback_in_place_witness :
    ¬roiInvalid [[1]] 0 0 1 1 ∧
    (apply_blur (some [[1]]) (some (0, 0, 1, 1)) "Motion" mcs).result = some [[15]] ∧
    (apply_blur (some [[1]]) (some (0, 0, 1, 1)) "Motion" mcs).buffer = some [[15]] ∧
    (apply_blur (some [[1]]) none "Motion" mcs).buffer = some [[1]] := by
  have hmain := c2_writeback_in_place [[1]] 0 0 1 1 "Motion" mcs (by decide)
  exact ⟨by decide, by decide, hmain.1 [[15]] (by decide), hmain.2⟩

/-- C3: the claim (and the spec) say an encode failure makes `process_video`
yield no result so the item is excluded from the batch.  The code catches
the `write_videofile` exception, logs it, and then falls through to
`return output_path`: on a concrete environment whose encoder raises for the
output path, `process_video` still returns the path and the batch reports it
as a success. -/
theorem c3_encode_failure_still_returns_path :
    vidEnvFail.writeFails "output/v.mp4" = true ∧
    (process_video vidEnvFail "v.mp4" none "Custom" csK1 0 none).result
      = some "output/v.mp4" ∧
    process_media_in_parallel vidEnvFail ["v.mp4"] none "Custom" csK1 0 none [0]
      = ["output/v.mp4"] := by
  decide

/-- C4: a region violating any bound (negative origin, non-positive size, or
extending past the frame) makes `apply_blur` return the original frame
byte-for-byte unmodified (both as result and as the caller's buffer) —
the validation error is only logged, which is outside the model — and a
region satisfying all bounds is used unchanged: the processed sub-frame is
exactly the crop at the given coordinates. -/
theorem c4_invalid_region_degrades_to_noop (img : Frame) (x y w h : Int) (m : String)
    (cs : CustomSettings) :
    (roiInvalid img x y w h →
      apply_blur (some img) (some (x, y, w, h)) m cs = ⟨some img, some img⟩) ∧
    (¬roiInvalid img x y w h →
      apply_blur (some img) (some (x, y, w, h)) m cs =
        match blurSub m cs (crop img x.toNat y.toNat w.toNat h.toNat) with
        | none => ⟨none, some img⟩
        | some b => ⟨some (writeRegion img x.toNat y.toNat b),
            some (writeRegion img x.toNat y.toNat b)⟩) := by
  constructor
  · intro hinv
    simp only [apply_blur]
    rw [if_pos hinv]
  · intro hval
    simp only [apply_blur]
    rw [if_neg hval]

/-- C4 witness: the theorem applied to a 1×1 frame with an out-of-bounds
region (no-op, frame returned unchanged) and with a valid region (the crop
is blurred and written back). -/
theorem c4_invalid_region_degrades_to_noop_witness :
    roiInvalid [[5]] 0 0 2 2 ∧
    apply_blur (some [[5]]) (some (0, 0, 2, 2)) "Heavy" mcs = ⟨some [[5]], some [[5]]⟩ ∧
    apply_blur (some [[5]]) (some (0, 0, 1, 1)) "Custom" csK1
      = ⟨some [[5]], some [[5]]⟩ := by
  refine ⟨by decide,
    (c4_invalid_region_degrades_to_noop [[5]] 0 0 2 2 "Heavy" mcs).1 (by decide), ?_⟩
  have h := (c4_invalid_region_degrades_to_noop [[5]] 0 0 1 1 "Custom" csK1).2 (by decide)
  rw [h]
  decide

/-- C5: for any batch and any completion order of the worker pool (any
permutation of the submitted indices), `process_media_in_parallel` returns
exactly N − M output paths, where M is the number of items whose transformer
yields no result; the failures are skipped, never raised. -/
theorem c5_batch_excludes_failures (env : MediaEnv) (paths : List String)
    (roi : Option (Int × Int × Int × Int)) (m : String) (cs : CustomSettings)
    (st : ℚ) (et : Option ℚ) (order : List Nat)
    (horder : order.Perm (List.range paths.length)) :
    (process_media_in_parallel env paths roi m cs st et order).length
      = paths.length
        - (paths.filter (fun p => (submitTask env p roi m cs st et).isNone)).length := by
  unfold process_media_in_parallel
  have hlen : paths.length = (paths.map (fun p => submitTask env p roi m cs st et)).length := by
    rw [List.length_map]
  rw [(horder.filterMap
    (fun i => (paths.map (fun p => submitTask env p roi m cs st et)).getD i none)).length_eq]
  rw [hlen, filterMap_getD_range, length_filterMap_id, List.length_map, List.filter_map,
    List.length_map]
  rfl

/-- C5 witness: a two-item batch in which the second video is unreadable,
collected in the reversed completion order, yields 2 − 1 paths. -/
theorem c5_batch_excludes_failures_witness :
    ([1, 0] : List Nat).Perm (List.range (["a.mp4", "b.mp4"] : List String).length) ∧
    (process_media_in_parallel vidEnvOk ["a.mp4", "b.mp4"] none "Custom" csK1 0 none
        [1, 0]).length
      = (["a.mp4", "b.mp4"] : List String).length
        - ((["a.mp4", "b.mp4"] : List String).filter
            (fun p => (submitTask vidEnvOk p none "Custom" csK1 0 none).isNone)).length :=
  ⟨by decide,
    c5_batch_excludes_failures vidEnvOk ["a.mp4", "b.mp4"] none "Custom" csK1 0 none
      [1, 0] (by decide)⟩

/-- C6 counterexample: the claim quantifies over every region, but with an
out-of-bounds region the ROI check runs before the mode check and returns
the frame, so an unknown mode does **not** signal failure there: on `[[1]]`
with region (0,0,2,2) and mode `Bogus`, `apply_blur` returns the frame
rather than no frame. -/
theorem c6_unknown_mode_invalid_roi_counterexample :
    apply_blur (some [[1]]) (some (0, 0, 2, 2)) "Bogus" mcs = ⟨some [[1]], some [[1]]⟩ ∧
    (some [[1]] : Option Frame) ≠ none := by
  decide

/-- C6 amended: for a region that is absent or valid, a mode outside
Heavy/Slight/Custom/Motion/Radial makes `apply_blur` return no frame, with
the caller's buffer left byte-for-byte unmodified (for an invalid region the
frame is instead returned unchanged by the ROI check, per C4). -/
theorem c6_unknown_mode_fails_on_valid_region (img : Frame)
    (roi : Option (Int × Int × Int × Int)) (m : String) (cs : CustomSettings)
    (hm : m ≠ "Heavy" ∧ m ≠ "Slight" ∧ m ≠ "Custom" ∧ m ≠ "Motion" ∧ m ≠ "Radial")
    (hroi : roi = none ∨ ∃ x y w h, roi = some (x, y, w, h) ∧ ¬roiInvalid img x y w h) :
    apply_blur (some img) roi m cs = ⟨none, some img⟩ := by
  obtain ⟨h1, h2, h3, h4, h5⟩ := hm
  rcases hroi with rfl | ⟨x, y, w, h, rfl, hval⟩
  · simp only [apply_blur]
    rw [blurSub_unknown m cs img h1 h2 h3 h4 h5]
  · simp only [apply_blur]
    rw [if_neg hval, blurSub_unknown m cs _ h1 h2 h3 h4 h5]

/-- C6 witness: the amended theorem applied to mode `Bogus` with an absent
region and with a valid rectangular region. -/
theorem c6_unknown_mode_fails_on_valid_region_witness :
    apply_blur (some [[7]]) none "Bogus" mcs = ⟨none, some [[7]]⟩ ∧
    apply_blur (some [[7]]) (some (0, 0, 1, 1)) "Bogus" mcs = ⟨none, some [[7]]⟩ :=
  ⟨c6_unknown_mode_fails_on_valid_region [[7]] none "Bogus" mcs
      ⟨by decide, by decide, by decide, by decide, by decide⟩ (Or.inl rfl),
    c6_unknown_mode_fails_on_valid_region [[7]] (some (0, 0, 1, 1)) "Bogus" mcs
      ⟨by decide, by decide, by decide, by decide, by decide⟩
      (Or.inr ⟨0, 0, 1, 1, rfl, by decide⟩)⟩

/-- C7 counterexample: the claim says Custom mode with an even ksize behaves
identically to the same call with ksize+1.  In the code ksize reaches the
Gaussian primitive unchanged, so ksize = 2 fails (the raised error becomes a
`None` return) while ksize = 3 succeeds: the two calls differ. -/
theorem c7_even_ksize_counterexample :
    ((2 : Int) % 2 = 0) ∧
    apply_blur (some [[4]]) none "Custom" ⟨2, 0, "horizontal", 45⟩
      ≠ apply_blur (some [[4]]) none "Custom" ⟨3, 0, "horizontal", 45⟩ := by
  decide

/-- C7 amended: `apply_blur` itself performs no ksize normalization — an
even non-zero ksize makes the Gaussian primitive raise, so Custom mode
returns no frame and leaves the buffer unchanged, while the same call with
ksize+1 succeeds; the even-to-odd forcing (`ksize += 1`) happens in the
GUI's `save_custom_blur_settings` before the settings ever reach
`apply_blur`. -/
theorem c7_even_ksize_fails_gui_normalizes (img : Frame) (cs : CustomSettings)
    (hk : cs.ksize % 2 = 0) (hk0 : cs.ksize ≠ 0) :
    apply_blur (some img) none "Custom" cs = ⟨none, some img⟩ ∧
    (0 ≤ cs.ksize →
      (apply_blur (some img) none "Custom"
        ⟨cs.ksize + 1, cs.sigma, cs.direction, cs.angle⟩).result
        = some (boxBlur (cs.ksize + 1).toNat img)) ∧
    save_ksize cs.ksize = cs.ksize + 1 ∧ save_ksize cs.ksize % 2 = 1 := by
  refine ⟨?_, ?_, ?_, ?_⟩
  · have hg : gaussianBlur cs.ksize cs.sigma img = none := by
      unfold gaussianBlur
      rw [if_neg]
      rintro (⟨hpos, hodd⟩ | ⟨hz, hs⟩)
      · omega
      · exact hk0 hz
    simp only [apply_blur]
    rw [blurSub_custom, hg]
  · intro hpos
    have hg : gaussianBlur (cs.ksize + 1) cs.sigma img
        = some (boxBlur (cs.ksize + 1).toNat img) := by
      unfold gaussianBlur
      rw [if_pos (Or.inl ⟨by omega, by omega⟩), if_neg (by omega)]
    simp only [apply_blur]
    rw [blurSub_custom, hg]
  · unfold save_ksize
    rw [if_pos hk]
  · unfold save_ksize
    rw [if_pos hk]
    omega

/-- C7 witness: the amended theorem at ksize = 2 on a 1×1 frame. -/
theorem c7_even_ksize_fails_gui_normalizes_witness :
    apply_blur (some [[4]]) none "Custom" ⟨2, 0, "horizontal", 45⟩ = ⟨none, some [[4]]⟩ ∧
    (apply_blur (some [[4]]) none "Custom" ⟨(2 : Int) + 1, 0, "horizontal", 45⟩).result
      = some (boxBlur ((2 : Int) + 1).toNat [[4]]) ∧
    save_ksize 2 = 2 + 1 := by
  have hmain := c7_even_ksize_fails_gui_normalizes [[4]] ⟨2, 0, "horizontal", 45⟩
    (by decide) (by decide)
  exact ⟨hmain.1, hmain.2.1 (by decide), hmain.2.2.1⟩

/-- C8: `process_video` defaults the end time to the clip's duration when
unset; when the requested window is [0, duration) every frame of the clip is
transformed; otherwise the output clip holds exactly the frames whose
timestamps lie in [start_time, end_time), each transformed and re-based —
frames outside the window are dropped, not left unblurred. -/
theorem c8_window_defaults_and_truncates (env : MediaEnv) (path : String)
    (clip : Clip Frame) (roi : Option (Int × Int × Int × Int)) (m : String)
    (cs : CustomSettings) (s : ℚ) (e : Option ℚ)
    (hclip : env.clips path = some clip) :
    process_video env path roi m cs s none
      = process_video env path roi m cs s (some clip.duration) ∧
    (s = 0 ∧ e.getD clip.duration = clip.duration →
      (process_video env path roi m cs s e).written
        = some (flImage (blur_region roi m cs) clip)) ∧
    (¬(s = 0 ∧ e.getD clip.duration = clip.duration) →
      (process_video env path roi m cs s e).written
        = some ⟨(clip.frames.filter
              (fun tf => decide (s ≤ tf.1 ∧ tf.1 < e.getD clip.duration))).map
            (fun tf => (tf.1 - s, blur_region roi m cs tf.2)),
            e.getD clip.duration - s⟩) := by
  refine ⟨?_, ?_, ?_⟩
  · simp only [process_video, hclip, Option.getD_none, Option.getD_some]
  · intro hfull
    simp only [process_video, hclip]
    rw [if_pos hfull]
  · intro hpart
    simp only [process_video, hclip]
    rw [if_neg hpart]
    simp only [flImage, subclipC, List.map_map]
    rfl

/-- C8 witness: on a two-frame two-second clip — the unset end time equals
the explicit full duration, the full window transforms every frame, and the
window [0, 1) keeps exactly the frame at t = 0. -/
theorem c8_window_defaults_and_truncates_witness :
    vidEnvOk.clips "a.mp4" = some demoClip ∧
    process_video vidEnvOk "a.mp4" none "Custom" csK1 0 none
      = process_video vidEnvOk "a.mp4" none "Custom" csK1 0 (some demoClip.duration) ∧
    (process_video vidEnvOk "a.mp4" none "Custom" csK1 0 (some 2)).written
      = some (flImage (blur_region none "Custom" csK1) demoClip) ∧
    (process_video vidEnvOk "a.mp4" none "Custom" csK1 0 (some 1)).written
      = some ⟨(demoClip.frames.filter
            (fun tf => decide ((0 : ℚ) ≤ tf.1 ∧ tf.1 < (some (1 : ℚ)).getD demoClip.duration))).map
          (fun tf => (tf.1 - 0, blur_region none "Custom" csK1 tf.2)),
          (some (1 : ℚ)).getD demoClip.duration - 0⟩ :=
  ⟨by decide,
    (c8_window_defaults_and_truncates vidEnvOk "a.mp4" demoClip none "Custom" csK1 0 none
      (by decide)).1,
    (c8_window_defaults_and_truncates vidEnvOk "a.mp4" demoClip none "Custom" csK1 0 (some 2)
      (by decide)).2.1 (by decide),
    (c8_window_defaults_and_truncates vidEnvOk "a.mp4" demoClip none "Custom" csK1 0 (some 1)
      (by decide)).2.2 (by decide)⟩

/-- C9 counterexample: the claim says each Motion-mode output pixel is the
average of 15 pixels along the direction.  The kernel the code builds is
all ones with no normalization, so on the 1×1 frame `[[10]]` (every tap
reads 10) the output pixel is 150 — the sum — not the average 10. -/
theorem c9_motion_average_counterexample :
    apply_blur (some [[10]]) (some (0, 0, 1, 1)) "Motion" mcs
      = ⟨some [[150]], some [[150]]⟩ ∧ (150 : Nat) ≠ 15 * 10 / 15 := by
  decide

/-- C9 amended: Motion mode convolves the sub-frame with the unnormalized
1×15 (horizontal) or 15×1 (vertical) all-ones kernel, so each output pixel
is the 255-saturated **sum** — not the average — of the 15 pixels along the
chosen direction (reflected at the borders). -/
theorem c9_motion_saturated_sum (f : Frame) (i j : Nat) (cs : CustomSettings)
    (hi : i < height f) (hj : j < width f) :
    (cs.direction = "horizontal" →
      blurSub "Motion" cs f = some (filter2D motionKernelH f) ∧
      pixAt (filter2D motionKernelH f) i j
        = min 255 (∑ b in Finset.range 15, getPixel f (i : Int) ((j : Int) + (b : Int) - 7))) ∧
    (cs.direction = "vertical" →
      blurSub "Motion" cs f = some (filter2D motionKernelV f) ∧
      pixAt (filter2D motionKernelV f) i j
        = min 255 (∑ a in Finset.range 15, getPixel f ((i : Int) + (a : Int) - 7) (j : Int))) := by
  constructor
  · intro hd
    refine ⟨blurSub_motion_h cs f hd, ?_⟩
    rw [pixAt_filter2D _ _ _ _ hi hj, corrAt_motionH]
  · intro hd
    refine ⟨blurSub_motion_v cs f hd, ?_⟩
    rw [pixAt_filter2D _ _ _ _ hi hj, corrAt_motionV]

/-- C9 witness: the amended theorem at the counterexample's frame and the
default horizontal settings. -/
theorem c9_motion_saturated_sum_witness :
    (0 : Nat) < height [[10]] ∧ (0 : Nat) < width [[10]] ∧
    (blurSub "Motion" mcs [[10]] = some (filter2D motionKernelH [[10]]) ∧
      pixAt (filter2D motionKernelH [[10]]) 0 0
        = min 255 (∑ b in Finset.range 15,
            getPixel [[10]] ((0 : Nat) : Int) (((0 : Nat) : Int) + (b : Int) - 7))) :=
  ⟨by decide, by decide,
    (c9_motion_saturated_sum [[10]] 0 0 mcs (by decide) (by decide)).1 rfl⟩

/-- C10: Motion mode with a direction outside horizontal/vertical leaves the
Python variable `kernel` unbound; the resulting `NameError` is caught by the
handler inside `apply_blur`, so the call yields no frame (rather than an
exception escaping) and the caller's buffer is byte-for-byte unmodified. -/
theorem c10_motion_unknown_direction_fails (img : Frame) (x y w h : Int)
    (cs : CustomSettings) (hroi : ¬roiInvalid img x y w h)
    (h1 : cs.direction ≠ "horizontal") (h2 : cs.direction ≠ "vertical") :
    apply_blur (some img) (some (x, y, w, h)) "Motion" cs = ⟨none, some img⟩ := by
  simp only [apply_blur]
  rw [if_neg hroi, blurSub_motion_bad cs _ h1 h2]

/-- C10 witness: direction `diagonal` on a 1×1 frame with a valid region. -/
theorem c10_motion_unknown_direction_fails_witness :
    ¬roiInvalid [[3]] 0 0 1 1 ∧ dcs.direction ≠ "horizontal" ∧
    dcs.direction ≠ "vertical" ∧
    apply_blur (some [[3]]) (some (0, 0, 1, 1)) "Motion" dcs = ⟨none, some [[3]]⟩ :=
  ⟨by decide, by decide, by decide,
    c10_motion_unknown_direction_fails [[3]] 0 0 1 1 dcs (by decide) (by decide) (by decide)⟩

end FlexiBlur
